import Mathlib

/-!
# ParkSphere server core: shallow embedding

A shallow embedding of `src/parksphere/server/main.py` (the read-only park
catalog service).  The relational store is modelled as explicit lists of park
rows and image rows; each SQL query of the source is translated to the
corresponding list operation:

* `WHERE c = ?`            → `List.filter` with an equality test;
* `ORDER BY col`           → `List.insertionSort` by that column (SQLite
  guarantees only that the result is ascending in the column; insertion sort
  produces one such ordering);
* no `ORDER BY`            → the rows in table (storage) order, as SQLite
  leaves the order unspecified;
* `LIMIT 1` / `fetchone()` → `List.head?`;
* `LIKE` patterns          → `likeMatch`, SQLite's default LIKE semantics
  (`%`/`_` wildcards, ASCII case folding, no escape character).

SQLite REAL columns (`coordinates_lat` / `coordinates_lon`) are carried
through the core untouched, so they are modelled by `Int` values: no
operation of the source inspects them.  Python's unbounded integers are
`Int`.  A nullable TEXT column is `Option String`.

The `activities` column holds a JSON payload decoded by
`json.loads(row['activities']) if row['activities'] else []` and then
validated by the pydantic field `activities: Optional[List[str]] = []`.
This is modelled by `decodeActivities`: `NULL` and `""` are Python-falsy and
give `[]` without decoding; the JSON literal `null` decodes to Python `None`,
which the `Optional` field accepts unchanged; a JSON array of strings decodes
to that list; every other payload (malformed JSON, or JSON that is neither
`null` nor an array of strings) raises (JSONDecodeError / ValidationError),
modelled as the single error `Err.dataCorruption`.
-/

namespace ParkSphere

/-- One row of the `parks` table. -/
structure ParkRow where
  id : Int
  name : String
  nps_code : String
  coordinates_lat : Int
  coordinates_lon : Int
  biome : String
  established : Int
  area_acres : Int
  summary : String
  /-- the `activities` TEXT column; `none` models SQL NULL. -/
  activities : Option String
  climate : Option String
deriving DecidableEq

/-- One row of the `images` table.  `id` is the ordering key
(`ORDER BY id` is the only ordering the source applies to images). -/
structure ImageRow where
  id : Int
  park_id : Int
  type : String
  url : String
  blur_hash : String
  attribution : Option String
deriving DecidableEq

/-- The relational store: the two tables, each in storage order. -/
structure DB where
  parks : List ParkRow
  images : List ImageRow
deriving DecidableEq

/-- pydantic model `Coordinates`. -/
structure Coordinates where
  lat : Int
  lon : Int
deriving DecidableEq

/-- pydantic model `GalleryImage`. -/
structure GalleryImage where
  url : String
  blur : String
  attribution : Option String
deriving DecidableEq

/-- pydantic model `Park`.  `activities: Optional[List[str]] = []`, so the
field value may be a list or Python `None`. -/
structure Park where
  id : Int
  name : String
  nps_code : String
  coordinates : Coordinates
  biome : String
  established : Int
  area_acres : Int
  summary : String
  gallery : List GalleryImage
  satellite : Option String
  activities : Option (List String)
  climate : Option String
deriving DecidableEq

/-- pydantic model `ParksList`. -/
structure ParksList where
  parks : List Park
  total : Nat
deriving DecidableEq

/-- Response shape of `/api/search`. -/
structure SearchResult where
  results : List Park
  query : String
  total : Nat
deriving DecidableEq

/-- The error outcomes of the service: HTTP 404 (`Park not found`),
HTTP 400 (`Query must be at least 2 characters`) and the HTTP 500 produced
by an activities payload that fails to decode/validate. -/
inductive Err where
  | notFound
  | invalidArgument
  | dataCorruption
deriving DecidableEq

/-! ## The activities decoder (`json.loads` + pydantic validation) -/

/-- JSON whitespace skipping. -/
def skipWs (cs : List Char) : List Char :=
  cs.dropWhile (fun c => c == ' ' || c == '\t' || c == '\n' || c == '\r')

/-- JSON string escapes (`\uXXXX` is not modelled; no claim exercises it). -/
def escChar (e : Char) : Option Char :=
  if e = 'n' then some '\n'
  else if e = 't' then some '\t'
  else if e = 'r' then some '\r'
  else if e = '"' then some '"'
  else if e = '\\' then some '\\'
  else if e = '/' then some '/'
  else if e = 'b' then some (Char.ofNat 8)
  else if e = 'f' then some (Char.ofNat 12)
  else none

/-- Parse the body of a JSON string literal (after the opening quote);
returns the characters and the input after the closing quote. -/
def parseStringBody : List Char → Option (List Char × List Char)
  | [] => none
  | '"' :: r => some ([], r)
  | '\\' :: [] => none
  | '\\' :: e :: r => do
      let c ← escChar e
      let (cs, rest) ← parseStringBody r
      pure (c :: cs, rest)
  | c :: r => do
      let (cs, rest) ← parseStringBody r
      pure (c :: cs, rest)

/-- Parse the items of a nonempty JSON array of string literals, starting
just after the `[`; consumes the closing `]`.  `fuel` bounds recursion depth
(one unit per item; callers pass the input length). -/
def parseListItems : Nat → List Char → Option (List String × List Char)
  | 0, _ => none
  | fuel + 1, s =>
    match skipWs s with
    | '"' :: r => do
        let (cs, rest) ← parseStringBody r
        match skipWs rest with
        | ',' :: r2 => do
            let (items, rest2) ← parseListItems fuel r2
            pure (String.mk cs :: items, rest2)
        | ']' :: r2 => pure ([String.mk cs], r2)
        | _ => none
    | _ => none

/-- `json.loads` restricted to the payloads the pydantic field
`Optional[List[str]]` accepts: `some none` for the JSON literal `null`
(Python `None`), `some (some l)` for a JSON array of strings, and `none`
for everything else (raises in the source). -/
def parseActivitiesJson (s : String) : Option (Option (List String)) :=
  match skipWs s.data with
  | 'n' :: 'u' :: 'l' :: 'l' :: rest =>
      if skipWs rest = [] then some none else none
  | '[' :: rest =>
      match skipWs rest with
      | ']' :: r2 => if skipWs r2 = [] then some (some []) else none
      | _ =>
        match parseListItems s.length rest with
        | some (items, r2) => if skipWs r2 = [] then some (some items) else none
        | none => none
  | _ => none

/-- `json.loads(row['activities']) if row['activities'] else []`, followed by
pydantic validation of `activities: Optional[List[str]]`.  SQL NULL and the
empty string are Python-falsy, so both short-circuit to `[]`. -/
def decodeActivities : Option String → Except Err (Option (List String))
  | none => .ok (some [])
  | some s =>
    if s = "" then .ok (some [])
    else
      match parseActivitiesJson s with
      | some v => .ok v
      | none => .error .dataCorruption

/-! ## SQLite LIKE (default semantics: `%`, `_`, ASCII case folding) -/

/-- `anySuffix f s` is true iff `f` accepts some suffix of `s`
(including `s` itself and `[]`). -/
def anySuffix (f : List Char → Bool) : List Char → Bool
  | [] => f []
  | c :: s => f (c :: s) || anySuffix f s

/-- One non-`%` pattern character against the front of the string: `_`
consumes any single character, anything else compares after ASCII
lowercasing; `k` continues on the rest. -/
def likeStep (c : Char) (k : List Char → Bool) : List Char → Bool
  | [] => false
  | d :: s => (if c = '_' then true else Char.toLower c == Char.toLower d) && k s

/-- SQLite's default `LIKE`: `%` matches any run of characters, `_` any one
character, and plain characters compare after ASCII lowercasing
(`Char.toLower` lowers exactly `A`–`Z`, which is SQLite's default folding). -/
def likeMatch : List Char → List Char → Bool
  | [], s => s.isEmpty
  | c :: p, s =>
    if c = '%' then anySuffix (likeMatch p) s
    else likeStep c (likeMatch p) s

/-- The pattern `f"%{q}%"` built by `search_parks`. -/
def searchPattern (q : String) : List Char :=
  '%' :: (q.data ++ ['%'])

/-! ## The repository queries (translated SQL) -/

/-- Lexicographic comparison of character lists by codepoint.  On UTF-8
encoded text, codepoint-lexicographic order coincides with byte-lexicographic
order, so this is SQLite's default BINARY collation. -/
def charListLe : List Char → List Char → Bool
  | [], _ => true
  | _ :: _, [] => false
  | a :: s, b :: t =>
    if a.toNat < b.toNat then true
    else if b.toNat < a.toNat then false
    else charListLe s t

/-- The store's BINARY collation on strings. -/
def strLe (a b : String) : Bool :=
  charListLe a.data b.data

instance decEqExcept [DecidableEq ε] [DecidableEq α] : DecidableEq (Except ε α) := fun x y =>
  match x, y with
  | .ok a, .ok b =>
      if h : a = b then isTrue (by rw [h]) else isFalse (fun hh => h (Except.ok.inj hh))
  | .ok _, .error _ => isFalse (fun hh => Except.noConfusion hh)
  | .error _, .ok _ => isFalse (fun hh => Except.noConfusion hh)
  | .error a, .error b =>
      if h : a = b then isTrue (by rw [h]) else isFalse (fun hh => h (Except.error.inj hh))

instance decRelRowNameLe : DecidableRel (fun a b : ParkRow => strLe a.name b.name = true) :=
  fun a b => instDecidableEqBool (strLe a.name b.name) true

instance decRelImageIdLe : DecidableRel (fun a b : ImageRow => a.id ≤ b.id) :=
  fun a b => Int.decLe a.id b.id

/-- `ORDER BY name` (ascending in the store's BINARY collation). -/
def sortByName (rows : List ParkRow) : List ParkRow :=
  rows.insertionSort (fun a b => strLe a.name b.name = true)

/-- `ORDER BY id` on image rows. -/
def sortByKey (rows : List ImageRow) : List ImageRow :=
  rows.insertionSort (fun a b => a.id ≤ b.id)

/-- The rows produced by
`SELECT * FROM images WHERE park_id = ? AND type = ? ORDER BY id`. -/
def imageRowsSorted (db : DB) (park_id : Int) (image_type : String) : List ImageRow :=
  sortByKey (db.images.filter (fun i => i.park_id == park_id && i.type == image_type))

/-- `get_park_images` (main.py:64): the gallery query plus the loop building
`GalleryImage(url=img['url'], blur=img['blur_hash'], attribution=img['attribution'])`. -/
def get_park_images (db : DB) (park_id : Int) (image_type : String) : List GalleryImage :=
  (imageRowsSorted db park_id image_type).map
    (fun img => { url := img.url, blur := img.blur_hash, attribution := img.attribution })

/-- The satellite lookup inside `get_park_from_row` (main.py:88–93):
`SELECT url FROM images WHERE park_id = ? AND type = 'satellite' LIMIT 1`
— note: no `ORDER BY`, so this takes the first matching row in storage
order, then `fetchone()`. -/
def fetchSatellite (db : DB) (park_id : Int) : Option String :=
  ((db.images.filter (fun i => i.park_id == park_id && i.type == "satellite")).map
    (fun i => i.url)).head?

/-- `get_park_from_row` (main.py:82): assemble one `Park` from a park row. -/
def get_park_from_row (db : DB) (row : ParkRow) : Except Err Park := do
  let gallery := get_park_images db row.id "photo"
  let satellite_url := fetchSatellite db row.id
  let activities ← decodeActivities row.activities
  pure {
    id := row.id
    name := row.name
    nps_code := row.nps_code
    coordinates := { lat := row.coordinates_lat, lon := row.coordinates_lon }
    biome := row.biome
    established := row.established
    area_acres := row.area_acres
    summary := row.summary
    gallery := gallery
    satellite := satellite_url
    activities := activities
    climate := row.climate }

/-- The row query of `get_parks` (main.py:133–139).  Python's `if biome:`
is false for both `None` and the empty string, so `biome=""` selects the
unfiltered branch. -/
def findAllRows (db : DB) (biome : Option String) : List ParkRow :=
  match biome with
  | some b =>
    if b = "" then sortByName db.parks
    else sortByName (db.parks.filter (fun r => r.biome == b))
  | none => sortByName db.parks

/-- The assembly loop shared by `get_parks` and `search_parks`
(`for row in rows: parks.append(await get_park_from_row(db, row))`):
the first failing row aborts the whole collection. -/
def assembleAll (db : DB) : List ParkRow → Except Err (List Park)
  | [] => .ok []
  | r :: rs => do
    let p ← get_park_from_row db r
    let ps ← assembleAll db rs
    pure (p :: ps)

/-- `get_parks` (main.py:129), the `GET /api/parks` handler. -/
def get_parks (db : DB) (biome : Option String) : Except Err ParksList := do
  let parks ← assembleAll db (findAllRows db biome)
  pure { parks := parks, total := parks.length }

/-- `get_park` (main.py:150), the `GET /api/parks/{park_id}` handler:
`fetchone()` on `SELECT * FROM parks WHERE id = ?`, 404 when absent. -/
def get_park (db : DB) (park_id : Int) : Except Err Park :=
  match (db.parks.filter (fun r => r.id == park_id)).head? with
  | none => .error .notFound
  | some row => get_park_from_row db row

/-- `get_parks_by_biome` (main.py:165): `return await get_parks(biome=biome)`. -/
def get_parks_by_biome (db : DB) (biome : String) : Except Err ParksList :=
  get_parks db (some biome)

/-- The row filter of `search_parks`:
`WHERE name LIKE ? OR summary LIKE ?` with pattern `f"%{q}%"`. -/
def matchRow (q : String) (r : ParkRow) : Bool :=
  likeMatch (searchPattern q) r.name.data || likeMatch (searchPattern q) r.summary.data

/-- The rows produced by the search query (main.py:188–195),
`ORDER BY name`. -/
def findMatchingRows (db : DB) (q : String) : List ParkRow :=
  sortByName (db.parks.filter (matchRow q))

/-- `search_parks` (main.py:181), the `GET /api/search` handler.
`if not q or len(q) < 2` is equivalent to `len(q) < 2` since the empty
string has length 0. -/
def search_parks (db : DB) (q : String) : Except Err SearchResult :=
  if q.length < 2 then .error .invalidArgument
  else do
    let parks ← assembleAll db (findMatchingRows db q)
    pure { results := parks, query := q, total := parks.length }

/-! ## Serialization (pydantic JSON rendering of the response models) -/

/-- A JSON value (numbers restricted to integers; the REAL coordinate
fields are carried as `Int`, see the header note). -/
inductive Json where
  | null
  | str (s : String)
  | int (n : Int)
  | arr (xs : List Json)
  | obj (fields : List (String × Json))

/-- Serialize an optional value: pydantic renders `None` as JSON `null`. -/
def optJson (f : α → Json) : Option α → Json
  | none => .null
  | some a => f a

/-- pydantic JSON rendering of `GalleryImage` (fields in declaration order). -/
def serializeGalleryImage (g : GalleryImage) : Json :=
  .obj [("url", .str g.url), ("blur", .str g.blur),
        ("attribution", optJson Json.str g.attribution)]

/-- pydantic JSON rendering of `Coordinates`. -/
def serializeCoordinates (c : Coordinates) : Json :=
  .obj [("lat", .int c.lat), ("lon", .int c.lon)]

/-- pydantic JSON rendering of `Park` (fields in declaration order;
`None`-valued optional fields are included as `null`, pydantic's default). -/
def serializePark (p : Park) : Json :=
  .obj [("id", .int p.id),
        ("name", .str p.name),
        ("nps_code", .str p.nps_code),
        ("coordinates", serializeCoordinates p.coordinates),
        ("biome", .str p.biome),
        ("established", .int p.established),
        ("area_acres", .int p.area_acres),
        ("summary", .str p.summary),
        ("gallery", .arr (p.gallery.map serializeGalleryImage)),
        ("satellite", optJson Json.str p.satellite),
        ("activities", optJson (fun l => .arr (l.map Json.str)) p.activities),
        ("climate", optJson Json.str p.climate)]

/-- The top-level keys of a serialized JSON object. -/
def jsonKeys : Json → List String
  | .obj fs => fs.map Prod.fst
  | _ => []

/-! ## Derived predicates used by the statements -/

/-- The row's activities payload decodes (no 500 on assembly). -/
def decodesOk (r : ParkRow) : Bool :=
  match decodeActivities r.activities with
  | .ok _ => true
  | .error _ => false

/-- Data-model invariant of the spec (§3): every stored activities payload
decodes. -/
def WellFormed (db : DB) : Bool :=
  db.parks.all decodesOk

/-- `q` contains neither of SQLite's LIKE metacharacters. -/
def noWildcards (q : String) : Bool :=
  q.data.all (fun c => c != '%' && c != '_')

/-- Case-insensitive (ASCII folding) containment check: `needle` occurs as a
contiguous run inside the haystack. -/
def strContainsAux (needle : List Char) : List Char → Bool
  | [] => needle.isEmpty
  | c :: t => needle.isPrefixOf (c :: t) || strContainsAux needle t

/-- `containsCI q s`: `q` is a case-insensitive substring of `s`. -/
def containsCI (q s : String) : Bool :=
  strContainsAux (q.data.map Char.toLower) (s.data.map Char.toLower)

/-! ## Order facts about the collation -/

theorem charListLe_total : ∀ x y : List Char, charListLe x y = true ∨ charListLe y x = true
  | [], _ => Or.inl rfl
  | _ :: _, [] => Or.inr rfl
  | a :: s, b :: t => by
    rcases Nat.lt_trichotomy a.toNat b.toNat with h | h | h
    · left; simp [charListLe, h]
    · have h2 : ¬ a.toNat < b.toNat := by omega
      have h3 : ¬ b.toNat < a.toNat := by omega
      rcases charListLe_total s t with ih | ih
      · left; simp [charListLe, h2, h3, ih]
      · right; simp [charListLe, h2, h3, ih]
    · right; simp [charListLe, h]

theorem charListLe_trans :
    ∀ x y z : List Char, charListLe x y = true → charListLe y z = true →
      charListLe x z = true
  | [], _, _, _, _ => rfl
  | _ :: _, [], _, h, _ => by simp [charListLe] at h
  | _ :: _, _ :: _, [], _, h => by simp [charListLe] at h
  | a :: s, b :: t, c :: u, h1, h2 => by
    by_cases hab : a.toNat < b.toNat <;> by_cases hbc : b.toNat < c.toNat
    · have : a.toNat < c.toNat := by omega
      simp [charListLe, this]
    · have hcb : ¬ c.toNat < b.toNat := by
        intro hc
        simp [charListLe, hbc, hc] at h2
      have : a.toNat < c.toNat := by omega
      simp [charListLe, this]
    · have hba : ¬ b.toNat < a.toNat := by
        intro hb
        simp [charListLe, hab, hb] at h1
      have : a.toNat < c.toNat := by omega
      simp [charListLe, this]
    · have hba : ¬ b.toNat < a.toNat := by
        intro hb
        simp [charListLe, hab, hb] at h1
      have hcb : ¬ c.toNat < b.toNat := by
        intro hc
        simp [charListLe, hbc, hc] at h2
      have hac : ¬ a.toNat < c.toNat := by omega
      have hca : ¬ c.toNat < a.toNat := by omega
      simp [charListLe, hab, hba] at h1
      simp [charListLe, hbc, hcb] at h2
      simp [charListLe, hac, hca]
      exact charListLe_trans s t u h1 h2

instance isTotalRowNameLe : IsTotal ParkRow (fun a b => strLe a.name b.name = true) :=
  ⟨fun a b => charListLe_total a.name.data b.name.data⟩

instance isTransRowNameLe : IsTrans ParkRow (fun a b => strLe a.name b.name = true) :=
  ⟨fun _ _ _ h1 h2 => charListLe_trans _ _ _ h1 h2⟩

instance isTotalImageIdLe : IsTotal ImageRow (fun a b => a.id ≤ b.id) :=
  ⟨fun a b => Int.le_total a.id b.id⟩

instance isTransImageIdLe : IsTrans ImageRow (fun a b => a.id ≤ b.id) :=
  ⟨fun _ _ _ h1 h2 => le_trans h1 h2⟩

/-! ## Assembly lemmas -/

theorem decodeActivities_error {o : Option String} {e : Err}
    (h : decodeActivities o = .error e) : e = .dataCorruption := by
  match o with
  | none => simp [decodeActivities] at h
  | some s =>
    by_cases hs : s = ""
    · simp [decodeActivities, hs] at h
    · rw [decodeActivities, if_neg hs] at h
      cases hp : parseActivitiesJson s with
      | some v => rw [hp] at h; cases h
      | none => rw [hp] at h; cases h; rfl

theorem get_park_from_row_eq {db : DB} {row : ParkRow} {a : Option (List String)}
    (h : decodeActivities row.activities = .ok a) :
    get_park_from_row db row = .ok {
      id := row.id
      name := row.name
      nps_code := row.nps_code
      coordinates := { lat := row.coordinates_lat, lon := row.coordinates_lon }
      biome := row.biome
      established := row.established
      area_acres := row.area_acres
      summary := row.summary
      gallery := get_park_images db row.id "photo"
      satellite := fetchSatellite db row.id
      activities := a
      climate := row.climate } := by
  unfold get_park_from_row
  rw [h]
  rfl

theorem get_park_from_row_err {db : DB} {row : ParkRow} {e : Err}
    (h : decodeActivities row.activities = .error e) :
    get_park_from_row db row = .error .dataCorruption := by
  have he := decodeActivities_error h
  subst he
  unfold get_park_from_row
  rw [h]
  rfl

theorem get_park_from_row_ok_inv {db : DB} {row : ParkRow} {p : Park}
    (h : get_park_from_row db row = .ok p) :
    decodeActivities row.activities = .ok p.activities ∧
      p.id = row.id ∧ p.name = row.name ∧ p.biome = row.biome ∧
      p.summary = row.summary := by
  cases hd : decodeActivities row.activities with
  | error e =>
    rw [get_park_from_row_err hd] at h
    cases h
  | ok a =>
    rw [get_park_from_row_eq hd] at h
    injection h with h2
    subst h2
    exact ⟨rfl, rfl, rfl, rfl, rfl⟩

theorem get_park_from_row_error_inv {db : DB} {row : ParkRow} {e : Err}
    (h : get_park_from_row db row = .error e) : e = .dataCorruption := by
  cases hd : decodeActivities row.activities with
  | error e2 =>
    rw [get_park_from_row_err hd] at h
    cases h
    rfl
  | ok a =>
    rw [get_park_from_row_eq hd] at h
    cases h

theorem get_park_from_row_isOk (db : DB) {row : ParkRow}
    (h : decodesOk row = true) : ∃ p, get_park_from_row db row = .ok p := by
  unfold decodesOk at h
  cases hd : decodeActivities row.activities with
  | error e => rw [hd] at h; simp at h
  | ok a => exact ⟨_, get_park_from_row_eq hd⟩

/-! ## `assembleAll` lemmas -/

theorem assembleAll_ok_forall2 {db : DB} :
    ∀ {rows : List ParkRow} {parks : List Park},
      assembleAll db rows = .ok parks →
      List.Forall₂ (fun r p => get_park_from_row db r = .ok p) rows parks := by
  intro rows
  induction rows with
  | nil => intro parks h; cases h; exact List.Forall₂.nil
  | cons r rs ih =>
    intro parks h
    unfold assembleAll at h
    cases hr : get_park_from_row db r with
    | error e => rw [hr] at h; cases h
    | ok p =>
      rw [hr] at h
      cases hrs : assembleAll db rs with
      | error e => rw [hrs] at h; cases h
      | ok ps =>
        rw [hrs] at h
        cases h
        exact List.Forall₂.cons hr (ih hrs)

theorem assembleAll_exists_ok {db : DB} :
    ∀ {rows : List ParkRow}, (∀ r ∈ rows, decodesOk r = true) →
      ∃ parks, assembleAll db rows = .ok parks := by
  intro rows
  induction rows with
  | nil => intro _; exact ⟨[], rfl⟩
  | cons r rs ih =>
    intro h
    obtain ⟨p, hp⟩ := get_park_from_row_isOk db (h r (List.mem_cons_self r rs))
    obtain ⟨ps, hps⟩ := ih (fun x hx => h x (List.mem_cons_of_mem r hx))
    refine ⟨p :: ps, ?_⟩
    unfold assembleAll
    rw [hp, hps]
    rfl

theorem assembleAll_error_inv {db : DB} :
    ∀ {rows : List ParkRow} {e : Err}, assembleAll db rows = .error e →
      e = .dataCorruption := by
  intro rows
  induction rows with
  | nil => intro e h; cases h
  | cons r rs ih =>
    intro e h
    unfold assembleAll at h
    cases hr : get_park_from_row db r with
    | error e2 =>
      rw [hr] at h
      cases h
      exact get_park_from_row_error_inv hr
    | ok p =>
      rw [hr] at h
      cases hrs : assembleAll db rs with
      | error e2 => rw [hrs] at h; cases h; exact ih hrs
      | ok ps => rw [hrs] at h; cases h

theorem assembleAll_error_of_mem {db : DB} :
    ∀ {rows : List ParkRow} {r : ParkRow}, r ∈ rows →
      get_park_from_row db r = .error .dataCorruption →
      assembleAll db rows = .error .dataCorruption := by
  intro rows
  induction rows with
  | nil => intro r hr; cases hr
  | cons x xs ih =>
    intro r hr herr
    unfold assembleAll
    cases hx : get_park_from_row db x with
    | error e2 =>
      have he := get_park_from_row_error_inv hx
      subst he
      rfl
    | ok p =>
      rcases List.mem_cons.mp hr with h | h
      · subst h; rw [hx] at herr; cases herr
      · rw [ih h herr]
        rfl

/-! ## `Forall₂` helpers -/

theorem forall2_mem_right {R : α → β → Prop} :
    ∀ {l : List α} {l' : List β}, List.Forall₂ R l l' → ∀ {b}, b ∈ l' →
      ∃ a ∈ l, R a b := by
  intro l l' h
  induction h with
  | nil => intro b hb; cases hb
  | cons hr _ ih =>
    intro b hb
    rcases List.mem_cons.mp hb with h | h
    · subst h; exact ⟨_, List.mem_cons_self _ _, hr⟩
    · obtain ⟨a, ha, har⟩ := ih h
      exact ⟨a, List.mem_cons_of_mem _ ha, har⟩

theorem forall2_map_eq {R : α → β → Prop} (f : α → γ) (g : β → γ) :
    ∀ {l : List α} {l' : List β}, List.Forall₂ R l l' →
      (∀ a b, R a b → g b = f a) → l'.map g = l.map f := by
  intro l l' h hfg
  induction h with
  | nil => rfl
  | cons hr _ ih => simp [List.map_cons, ih, hfg _ _ hr]

/-! ## Soundness of LIKE matching for wildcard-free needles -/

theorem anySuffix_true {f : List Char → Bool} :
    ∀ {s : List Char}, anySuffix f s = true → ∃ t1 t2, s = t1 ++ t2 ∧ f t2 = true := by
  intro s
  induction s with
  | nil => intro h; exact ⟨[], [], rfl, h⟩
  | cons c s ih =>
    intro h
    rw [anySuffix, Bool.or_eq_true] at h
    rcases h with h | h
    · exact ⟨[], c :: s, rfl, h⟩
    · obtain ⟨t1, t2, hs, hf⟩ := ih h
      exact ⟨c :: t1, t2, by rw [hs]; rfl, hf⟩

theorem likeMatch_nil (s : List Char) : likeMatch [] s = s.isEmpty := rfl

theorem likeMatch_cons (c : Char) (p s : List Char) :
    likeMatch (c :: p) s =
      if c = '%' then anySuffix (likeMatch p) s else likeStep c (likeMatch p) s := rfl

theorem likeStep_nil (c : Char) (k : List Char → Bool) : likeStep c k [] = false := rfl

theorem likeStep_cons (c : Char) (k : List Char → Bool) (d : Char) (s : List Char) :
    likeStep c k (d :: s) =
      ((if c = '_' then true else Char.toLower c == Char.toLower d) && k s) := rfl

theorem likeMatch_tail_sound :
    ∀ {qs : List Char}, qs.all (fun c => c != '%' && c != '_') = true →
      ∀ {t : List Char}, likeMatch (qs ++ ['%']) t = true →
        ∃ u1 u2, t = u1 ++ u2 ∧ u1.map Char.toLower = qs.map Char.toLower := by
  intro qs
  induction qs with
  | nil => intro _ t _; exact ⟨[], t, rfl, rfl⟩
  | cons c qs ih =>
    intro hall t h
    simp only [List.all_cons, Bool.and_eq_true, bne_iff_ne] at hall
    obtain ⟨⟨hc1, hc2⟩, hall⟩ := hall
    rw [List.cons_append, likeMatch_cons, if_neg hc1] at h
    match t with
    | [] => rw [likeStep_nil] at h; cases h
    | d :: t' =>
      rw [likeStep_cons, if_neg hc2, Bool.and_eq_true, beq_iff_eq] at h
      obtain ⟨hcd, h⟩ := h
      obtain ⟨u1, u2, ht, hu⟩ := ih hall h
      exact ⟨d :: u1, u2, by rw [ht]; rfl, by simp [List.map_cons, hu, hcd]⟩

theorem isPrefixOf_append_self : ∀ (n t : List Char), n.isPrefixOf (n ++ t) = true := by
  intro n t
  induction n with
  | nil => cases t <;> simp [List.isPrefixOf]
  | cons c n ih => simp [List.isPrefixOf, ih]

theorem strContainsAux_nil (n : List Char) : strContainsAux n [] = n.isEmpty := rfl

theorem strContainsAux_cons (n : List Char) (c : Char) (t : List Char) :
    strContainsAux n (c :: t) = (n.isPrefixOf (c :: t) || strContainsAux n t) := rfl

theorem strContainsAux_self_append (n t : List Char) :
    strContainsAux n (n ++ t) = true := by
  cases n with
  | nil =>
    cases t with
    | nil => rfl
    | cons c u =>
      rw [List.nil_append, strContainsAux_cons]
      simp [List.isPrefixOf]
  | cons a as =>
    rw [List.cons_append, strContainsAux_cons, ← List.cons_append,
      isPrefixOf_append_self, Bool.true_or]

theorem strContainsAux_append_left :
    ∀ (h1 : List Char) {n t : List Char}, strContainsAux n t = true →
      strContainsAux n (h1 ++ t) = true := by
  intro h1
  induction h1 with
  | nil => intro n t h; exact h
  | cons c h1 ih =>
    intro n t h
    rw [List.cons_append, strContainsAux, ih h, Bool.or_true]

theorem likeMatch_sound {q s : String} (hw : noWildcards q = true)
    (h : likeMatch (searchPattern q) s.data = true) : containsCI q s = true := by
  rw [searchPattern, likeMatch, if_pos rfl] at h
  obtain ⟨t1, t2, hs, hm⟩ := anySuffix_true h
  obtain ⟨u1, u2, ht, hu⟩ := likeMatch_tail_sound hw hm
  rw [containsCI, hs, ht]
  rw [List.map_append, List.map_append, ← hu]
  exact strContainsAux_append_left _ (strContainsAux_self_append _ _)

/-! ## Sort corollaries -/

theorem sortByName_mem {rows : List ParkRow} {r : ParkRow} :
    r ∈ sortByName rows ↔ r ∈ rows :=
  List.mem_insertionSort _

theorem sortByName_sorted (rows : List ParkRow) :
    (sortByName rows).Pairwise (fun a b => strLe a.name b.name = true) :=
  List.sorted_insertionSort _ rows

theorem sortByName_length (rows : List ParkRow) :
    (sortByName rows).length = rows.length :=
  (List.perm_insertionSort _ rows).length_eq

theorem findAllRows_of_ne (db : DB) {b : String} (hb : b ≠ "") :
    findAllRows db (some b) = sortByName (db.parks.filter (fun r => r.biome == b)) := by
  rw [findAllRows, if_neg hb]

theorem findAllRows_sub {db : DB} {b : Option String} {r : ParkRow}
    (h : r ∈ findAllRows db b) : r ∈ db.parks := by
  match b with
  | none => exact sortByName_mem.mp h
  | some s =>
    rw [findAllRows] at h
    by_cases hs : s = ""
    · rw [if_pos hs] at h
      exact sortByName_mem.mp h
    · rw [if_neg hs] at h
      exact (List.mem_filter.mp (sortByName_mem.mp h)).1

theorem findMatchingRows_sub {db : DB} {q : String} {r : ParkRow}
    (h : r ∈ findMatchingRows db q) : r ∈ db.parks :=
  (List.mem_filter.mp (sortByName_mem.mp h)).1

theorem wellFormed_mem {db : DB} {r : ParkRow} (hw : WellFormed db = true)
    (hr : r ∈ db.parks) : decodesOk r = true :=
  List.all_eq_true.mp hw r hr

/-! ## Example data -/

/-- The example park row of spec §8:
`{id:1, name:"Test Park", biome:"desert", code:"TEST"}`. -/
def sampleRow : ParkRow :=
  { id := 1, name := "Test Park", nps_code := "TEST", coordinates_lat := 0,
    coordinates_lon := 0, biome := "desert", established := 1900,
    area_acres := 10, summary := "a summary", activities := none, climate := none }

/-- `sampleRow` assembled against a store with no images. -/
def samplePark : Park :=
  { id := 1, name := "Test Park", nps_code := "TEST", coordinates := { lat := 0, lon := 0 },
    biome := "desert", established := 1900, area_acres := 10, summary := "a summary",
    gallery := [], satellite := none, activities := some [], climate := none }

/-- A store with one park and no images. -/
def biomeDb : DB :=
  { parks := [sampleRow], images := [] }

/-- A store whose images table holds two satellite rows for park 1, stored
with the larger ordering key first. -/
def satDb : DB :=
  { parks := [sampleRow],
    images := [
      { id := 5, park_id := 1, type := "satellite", url := "sat5.jpg",
        blur_hash := "b5", attribution := none },
      { id := 2, park_id := 1, type := "satellite", url := "sat2.jpg",
        blur_hash := "b2", attribution := none }] }

/-- A store whose park 1 has photo images with ordering keys `[3, 1, 2]`
(in storage order). -/
def photoDb : DB :=
  { parks := [sampleRow],
    images := [
      { id := 3, park_id := 1, type := "photo", url := "p3.jpg",
        blur_hash := "b3", attribution := none },
      { id := 1, park_id := 1, type := "photo", url := "p1.jpg",
        blur_hash := "b1", attribution := none },
      { id := 2, park_id := 1, type := "photo", url := "p2.jpg",
        blur_hash := "b2", attribution := none }] }

/-- A park row named `xyz` (no `x_z` substring in name or summary). -/
def wildRow : ParkRow :=
  { id := 1, name := "xyz", nps_code := "X", coordinates_lat := 0,
    coordinates_lon := 0, biome := "b", established := 1, area_acres := 1,
    summary := "green meadows", activities := none, climate := none }

def wildDb : DB :=
  { parks := [wildRow], images := [] }

/-- `wildRow` assembled against `wildDb`. -/
def wildPark : Park :=
  { id := 1, name := "xyz", nps_code := "X", coordinates := { lat := 0, lon := 0 },
    biome := "b", established := 1, area_acres := 1, summary := "green meadows",
    gallery := [], satellite := none, activities := some [], climate := none }

/-- A park row whose stored activities payload is the JSON literal `null`. -/
def nullActRow : ParkRow :=
  { id := 7, name := "Null Park", nps_code := "NUL", coordinates_lat := 0,
    coordinates_lon := 0, biome := "tundra", established := 1950,
    area_acres := 5, summary := "northern", activities := some "null", climate := none }

def nullActDb : DB :=
  { parks := [nullActRow], images := [] }

/-- `nullActRow` assembled: the `Optional[List[str]]` field holds Python
`None`. -/
def nullActPark : Park :=
  { id := 7, name := "Null Park", nps_code := "NUL", coordinates := { lat := 0, lon := 0 },
    biome := "tundra", established := 1950, area_acres := 5, summary := "northern",
    gallery := [], satellite := none, activities := none, climate := none }

/-- A park row whose stored activities payload is malformed JSON. -/
def corruptRow : ParkRow :=
  { id := 9, name := "Bad Park", nps_code := "BAD", coordinates_lat := 0,
    coordinates_lon := 0, biome := "swamp", established := 1960,
    area_acres := 2, summary := "murky", activities := some "oops", climate := none }

def corruptDb : DB :=
  { parks := [corruptRow], images := [] }

/-- A park row whose stored activities payload encodes
`["hiking","camping"]`. -/
def actRow : ParkRow :=
  { id := 3, name := "Act Park", nps_code := "ACT", coordinates_lat := 0,
    coordinates_lon := 0, biome := "forest", established := 1970,
    area_acres := 4, summary := "busy", activities := some "[\"hiking\",\"camping\"]",
    climate := none }

def emptyDb : DB :=
  { parks := [], images := [] }

/-- A gallery image and a park carrying it, for the serialization claims. -/
def sampleImage : GalleryImage :=
  { url := "a.jpg", blur := "bl", attribution := none }

def galleryPark : Park :=
  { id := 1, name := "Test Park", nps_code := "TEST", coordinates := { lat := 0, lon := 0 },
    biome := "desert", established := 1900, area_acres := 10, summary := "a summary",
    gallery := [sampleImage], satellite := none, activities := some [], climate := none }

/-! ## Unfolding helpers for the two collection operations -/

theorem get_parks_eq_ok {db : DB} {b : Option String} {parks : List Park}
    (h : assembleAll db (findAllRows db b) = .ok parks) :
    get_parks db b = .ok { parks := parks, total := parks.length } := by
  unfold get_parks
  rw [h]
  rfl

theorem get_parks_eq_err {db : DB} {b : Option String} {e : Err}
    (h : assembleAll db (findAllRows db b) = .error e) :
    get_parks db b = .error e := by
  unfold get_parks
  rw [h]
  rfl

theorem search_parks_eq_ok {db : DB} {q : String} {parks : List Park}
    (hq : ¬ q.length < 2)
    (h : assembleAll db (findMatchingRows db q) = .ok parks) :
    search_parks db q = .ok { results := parks, query := q, total := parks.length } := by
  unfold search_parks
  rw [if_neg hq, h]
  rfl

theorem search_parks_eq_err {db : DB} {q : String} {e : Err}
    (hq : ¬ q.length < 2)
    (h : assembleAll db (findMatchingRows db q) = .error e) :
    search_parks db q = .error e := by
  unfold search_parks
  rw [if_neg hq, h]
  rfl

/-! ## Claims -/

/-- C2 counterexample: for the biome value `""`, Python's `if biome:` takes
the unfiltered branch, so `listParks("")` returns every park: here a park
with biome `"desert"` is returned and the total is 1, while the number of
park rows with biome `""` is 0. -/
theorem get_parks_empty_biome_cex :
    get_parks biomeDb (some "") = .ok { parks := [samplePark], total := 1 } ∧
    samplePark.biome ≠ "" ∧
    (biomeDb.parks.filter (fun r => r.biome == "")).length = 0 := by decide

/-- C2 (amended): for every NON-EMPTY biome value B, every park returned by
`listParks(B)` has biome B and the returned total is the number of park
rows with biome B; on a store whose activities payloads all decode the
operation succeeds. -/
theorem get_parks_biome_filter (db : DB) (B : String) (hB : B ≠ "") :
    (∀ res, get_parks db (some B) = .ok res →
      (∀ p ∈ res.parks, p.biome = B) ∧
      res.total = (db.parks.filter (fun r => r.biome == B)).length) ∧
    (WellFormed db = true → ∃ res, get_parks db (some B) = .ok res) := by
  have hrows := findAllRows_of_ne db hB
  constructor
  · intro res hres
    cases ha : assembleAll db (findAllRows db (some B)) with
    | error e =>
      rw [get_parks_eq_err ha] at hres
      cases hres
    | ok parks =>
      rw [get_parks_eq_ok ha] at hres
      injection hres with h2
      subst h2
      have hf := assembleAll_ok_forall2 ha
      constructor
      · intro p hp
        obtain ⟨r, hr, hok⟩ := forall2_mem_right hf hp
        rw [hrows] at hr
        have hrf := List.mem_filter.mp (sortByName_mem.mp hr)
        have hb := (get_park_from_row_ok_inv hok).2.2.2.1
        rw [hb]
        exact beq_iff_eq.mp hrf.2
      · have hlen := hf.length_eq
        rw [hrows] at hlen
        show parks.length = (db.parks.filter (fun r => r.biome == B)).length
        rw [← hlen]
        exact sortByName_length _
  · intro hw
    obtain ⟨parks, hp⟩ := assembleAll_exists_ok
      (fun r hr => wellFormed_mem hw (findAllRows_sub hr))
    exact ⟨_, get_parks_eq_ok hp⟩

/-- C2 witness: the amended filter theorem applied to a one-park desert
store. -/
theorem get_parks_biome_filter_witness :
    (("desert" : String) ≠ "") ∧
    (∀ p ∈ (ParksList.mk [samplePark] 1).parks, p.biome = "desert") ∧
    (ParksList.mk [samplePark] 1).total =
      (biomeDb.parks.filter (fun r => r.biome == "desert")).length ∧
    (∃ res, get_parks biomeDb (some "desert") = .ok res) := by
  have h := get_parks_biome_filter biomeDb "desert" (by decide)
  have h1 := h.1 (ParksList.mk [samplePark] 1) (by decide)
  exact ⟨by decide, h1.1, h1.2, h.2 (by decide)⟩

/-- C3 counterexample: the search query is spliced into a LIKE pattern, so
LIKE metacharacters in `q` are wildcards: for the store with one park named
`xyz`, `search("x_z")` returns that park even though `x_z` is not a
case-insensitive substring of its name or summary. -/
theorem search_wildcard_cex :
    2 ≤ ("x_z" : String).length ∧
    search_parks wildDb "x_z" =
      .ok { results := [wildPark], query := "x_z", total := 1 } ∧
    containsCI "x_z" wildPark.name = false ∧
    containsCI "x_z" wildPark.summary = false := by decide

/-- C3 (amended): for every query `q` containing no LIKE metacharacter
(`%` or `_`), every park returned by `search(q)` has `q` as a
case-insensitive substring of its name or of its summary, and the results
are ordered by name ascending (store collation). -/
theorem search_results_substring (db : DB) (q : String) (res : SearchResult)
    (hw : noWildcards q = true) (h : search_parks db q = .ok res) :
    (∀ p ∈ res.results, containsCI q p.name = true ∨ containsCI q p.summary = true) ∧
    res.results.Pairwise (fun a b => strLe a.name b.name = true) := by
  by_cases hq : q.length < 2
  · unfold search_parks at h
    rw [if_pos hq] at h
    cases h
  · cases ha : assembleAll db (findMatchingRows db q) with
    | error e =>
      rw [search_parks_eq_err hq ha] at h
      cases h
    | ok parks =>
      rw [search_parks_eq_ok hq ha] at h
      injection h with h2
      subst h2
      have hf := assembleAll_ok_forall2 ha
      constructor
      · intro p hp
        obtain ⟨r, hr, hok⟩ := forall2_mem_right hf hp
        have hrf := List.mem_filter.mp (sortByName_mem.mp hr)
        have hm := hrf.2
        rw [matchRow, Bool.or_eq_true] at hm
        have hinv := get_park_from_row_ok_inv hok
        rcases hm with hm | hm
        · left
          rw [hinv.2.2.1]
          exact likeMatch_sound hw hm
        · right
          rw [hinv.2.2.2.2]
          exact likeMatch_sound hw hm
      · have hs : (findMatchingRows db q).Pairwise
            (fun a b => strLe a.name b.name = true) :=
          sortByName_sorted (db.parks.filter (matchRow q))
        have hnames : parks.map (fun p => p.name) =
            (findMatchingRows db q).map (fun r => r.name) :=
          forall2_map_eq (fun r => r.name) (fun p => p.name) hf
            (fun a b hab => (get_park_from_row_ok_inv hab).2.2.1)
        have hpm := (List.pairwise_map (f := fun r : ParkRow => r.name)
          (R := fun x y => strLe x y = true)).mpr hs
        rw [← hnames] at hpm
        show List.Pairwise (fun a b : Park => strLe a.name b.name = true) parks
        exact (List.pairwise_map (f := fun p : Park => p.name)
          (R := fun x y => strLe x y = true)).mp hpm

/-- C3 witness: the amended soundness theorem at a wildcard-free query. -/
theorem search_results_substring_witness :
    noWildcards "xy" = true ∧
    (∀ p ∈ (SearchResult.mk [wildPark] "xy" 1).results,
      containsCI "xy" p.name = true ∨ containsCI "xy" p.summary = true) ∧
    (SearchResult.mk [wildPark] "xy" 1).results.Pairwise
      (fun a b => strLe a.name b.name = true) := by
  have h := search_results_substring wildDb "xy" (SearchResult.mk [wildPark] "xy" 1)
    (by decide) (by decide)
  exact ⟨by decide, h.1, h.2⟩

/-- C7 counterexample: a stored activities payload of JSON `null` does not
decode as a serialized list, yet assembly does not fail: `json.loads`
yields Python `None`, the `Optional[List[str]]` field accepts it, and
`listParks` succeeds with that park carried along (activities `null`), so no
DataCorruption error is surfaced. -/
theorem activities_null_cex :
    parseActivitiesJson "null" = some none ∧
    decodeActivities (some "null") = .ok none ∧
    get_park_from_row nullActDb nullActRow = .ok nullActPark ∧
    nullActPark.activities = none ∧
    get_parks nullActDb none = .ok { parks := [nullActPark], total := 1 } := by decide

/-- C7 (amended): if the stored activities payload of a row raises on
decoding (malformed JSON, or JSON that is neither `null` nor a list of
strings), assembling that row fails with the DataCorruption error, and any
collection operation whose result set contains the row fails whole, with
no partial results. -/
theorem corruption_fails_collection (db : DB) (b : Option String) (q : String)
    (r : ParkRow) (hdec : decodeActivities r.activities = .error .dataCorruption) :
    get_park_from_row db r = .error .dataCorruption ∧
    (r ∈ findAllRows db b → get_parks db b = .error .dataCorruption) ∧
    (¬ q.length < 2 → r ∈ findMatchingRows db q →
      search_parks db q = .error .dataCorruption) := by
  have hrow : get_park_from_row db r = .error .dataCorruption := get_park_from_row_err hdec
  refine ⟨hrow, ?_, ?_⟩
  · intro hr
    exact get_parks_eq_err (assembleAll_error_of_mem hr hrow)
  · intro hq hr
    exact search_parks_eq_err hq (assembleAll_error_of_mem hr hrow)

/-- C7 witness: a malformed payload aborts both `listParks` and `search`
at a concrete store. -/
theorem corruption_fails_collection_witness :
    decodeActivities corruptRow.activities = .error .dataCorruption ∧
    get_park_from_row corruptDb corruptRow = .error .dataCorruption ∧
    corruptRow ∈ findAllRows corruptDb none ∧
    get_parks corruptDb none = .error .dataCorruption ∧
    ¬ ("ba" : String).length < 2 ∧
    corruptRow ∈ findMatchingRows corruptDb "ba" ∧
    search_parks corruptDb "ba" = .error .dataCorruption := by
  have h := corruption_fails_collection corruptDb none "ba" corruptRow (by decide)
  exact ⟨by decide, h.1, by decide, h.2.1 (by decide), by decide, by decide,
    h.2.2 (by decide) (by decide)⟩

/-- C5: `getPark(id)` fails with NotFound exactly when no park row has the
queried id; on a store whose activities payloads decode (the data-model
invariant of spec §3), a present id yields a Park with that id. -/
theorem get_park_spec (db : DB) (i : Int) :
    (get_park db i = .error .notFound ↔ ∀ r ∈ db.parks, r.id ≠ i) ∧
    (WellFormed db = true → ∀ r ∈ db.parks, r.id = i →
      ∃ p, get_park db i = .ok p ∧ p.id = i) := by
  constructor
  · cases hh : (db.parks.filter (fun r => r.id == i)).head? with
    | none =>
      have hnil := List.head?_eq_none_iff.mp hh
      constructor
      · intro _ r hr hri
        have hm : r ∈ db.parks.filter (fun r => r.id == i) :=
          List.mem_filter.mpr ⟨hr, by rw [beq_iff_eq]; exact hri⟩
        rw [hnil] at hm
        cases hm
      · intro _
        unfold get_park
        rw [hh]
    | some row =>
      have hmem : row ∈ db.parks.filter (fun r => r.id == i) :=
        List.mem_of_mem_head? (by rw [hh]; rfl)
      have hrow := List.mem_filter.mp hmem
      have hid : row.id = i := beq_iff_eq.mp hrow.2
      have heq : get_park db i = get_park_from_row db row := by
        unfold get_park
        rw [hh]
      constructor
      · intro habs
        rw [heq] at habs
        cases hd : decodeActivities row.activities with
        | ok a =>
          rw [get_park_from_row_eq hd] at habs
          cases habs
        | error e =>
          rw [get_park_from_row_err hd] at habs
          exact absurd habs (by decide)
      · intro hall
        exact absurd hid (hall row hrow.1)
  · intro hw r hr hri
    cases hh : (db.parks.filter (fun r => r.id == i)).head? with
    | none =>
      have hnil := List.head?_eq_none_iff.mp hh
      have hm : r ∈ db.parks.filter (fun r => r.id == i) :=
        List.mem_filter.mpr ⟨hr, by rw [beq_iff_eq]; exact hri⟩
      rw [hnil] at hm
      cases hm
    | some row =>
      have hmem : row ∈ db.parks.filter (fun r => r.id == i) :=
        List.mem_of_mem_head? (by rw [hh]; rfl)
      have hrow := List.mem_filter.mp hmem
      have hdec := wellFormed_mem hw hrow.1
      obtain ⟨p, hp⟩ := get_park_from_row_isOk db hdec
      have heq : get_park db i = get_park_from_row db row := by
        unfold get_park
        rw [hh]
      refine ⟨p, by rw [heq]; exact hp, ?_⟩
      rw [(get_park_from_row_ok_inv hp).2.1]
      exact beq_iff_eq.mp hrow.2

/-- C5 witness: NotFound-iff and present-id lookup on the one-park store. -/
theorem get_park_spec_witness :
    WellFormed biomeDb = true ∧ sampleRow ∈ biomeDb.parks ∧ sampleRow.id = 1 ∧
    (∃ p, get_park biomeDb 1 = .ok p ∧ p.id = 1) :=
  ⟨by decide, by decide, by decide,
    (get_park_spec biomeDb 1).2 (by decide) sampleRow (by decide) (by decide)⟩

/-- C6: `search(q)` fails with InvalidArgument exactly when `len(q) < 2`;
for `len(q) ≥ 2`, on a store whose activities payloads decode, it returns
the assembled matches together with the echoed query and their count. -/
theorem search_parks_validation (db : DB) (q : String) :
    (search_parks db q = .error .invalidArgument ↔ q.length < 2) ∧
    (2 ≤ q.length → WellFormed db = true →
      ∃ res, search_parks db q = .ok res ∧ res.query = q ∧
        res.total = res.results.length ∧
        List.Forall₂ (fun r p => get_park_from_row db r = .ok p)
          (findMatchingRows db q) res.results) := by
  constructor
  · by_cases hq : q.length < 2
    · constructor
      · intro _
        exact hq
      · intro _
        unfold search_parks
        rw [if_pos hq]
    · constructor
      · intro habs
        cases ha : assembleAll db (findMatchingRows db q) with
        | ok parks =>
          rw [search_parks_eq_ok hq ha] at habs
          cases habs
        | error e =>
          have he := assembleAll_error_inv ha
          subst he
          rw [search_parks_eq_err hq ha] at habs
          exact absurd habs (by decide)
      · intro hlt
        exact absurd hlt hq
  · intro hle hw
    have hq : ¬ q.length < 2 := not_lt.mpr hle
    obtain ⟨parks, hp⟩ := assembleAll_exists_ok
      (fun r hr => wellFormed_mem hw (findMatchingRows_sub hr))
    exact ⟨_, search_parks_eq_ok hq hp, rfl, rfl, assembleAll_ok_forall2 hp⟩

/-- C6 witness: validation and success shape at a concrete store and
query. -/
theorem search_parks_validation_witness :
    2 ≤ ("xy" : String).length ∧ WellFormed wildDb = true ∧
    (∃ res, search_parks wildDb "xy" = .ok res ∧ res.query = "xy" ∧
      res.total = res.results.length ∧
      List.Forall₂ (fun r p => get_park_from_row wildDb r = .ok p)
        (findMatchingRows wildDb "xy") res.results) :=
  ⟨by decide, by decide,
    (search_parks_validation wildDb "xy").2 (by decide) (by decide)⟩

/-- C1: the satellite lookup runs `SELECT url ... LIMIT 1` with no
`ORDER BY`, so it returns the first matching row in storage order, not the
row with the smallest ordering key.  For a park whose satellite rows are
stored with keys `[5, 2]` (in that storage order), `fetchSatellite` returns
the key-5 row's URL, while the claim requires the key-2 row's URL. -/
theorem fetchSatellite_arbitrary_first_row :
    ((satDb.images.filter (fun i => i.park_id == 1 && i.type == "satellite")).map
      (fun i => i.id)) = [5, 2] ∧
    fetchSatellite satDb 1 = some "sat5.jpg" ∧
    fetchSatellite satDb 1 ≠ some "sat2.jpg" := by decide

/-- C4 counterexample: the serialized `Park` has no key `code`; the park
code is serialized under the key `nps_code` (the pydantic field name), so
the claimed field set is not the produced one. -/
theorem park_serialization_code_key_cex :
    jsonKeys (serializePark samplePark) ≠
      ["id", "name", "code", "coordinates", "biome", "established", "area_acres",
       "summary", "gallery", "satellite", "activities", "climate"] ∧
    "nps_code" ∈ jsonKeys (serializePark samplePark) ∧
    "code" ∉ jsonKeys (serializePark samplePark) := by decide

/-- C4 (amended): every serialized `Park` value has exactly the field set
id, name, `nps_code` (not `code`), coordinates\x7blat, lon\x7d, biome,
established, area_acres, summary, gallery (entries with exactly url, blur,
attribution), satellite, activities, climate. -/
theorem park_serialization_keys (p : Park) :
    jsonKeys (serializePark p) =
      ["id", "name", "nps_code", "coordinates", "biome", "established", "area_acres",
       "summary", "gallery", "satellite", "activities", "climate"] ∧
    jsonKeys (serializeCoordinates p.coordinates) = ["lat", "lon"] ∧
    ∀ g ∈ p.gallery, jsonKeys (serializeGalleryImage g) = ["url", "blur", "attribution"] :=
  ⟨rfl, rfl, fun _ _ => rfl⟩

/-- C4 witness: the amended key theorem applied to a park with a nonempty
gallery. -/
theorem park_serialization_keys_witness :
    sampleImage ∈ galleryPark.gallery ∧
    jsonKeys (serializeGalleryImage sampleImage) = ["url", "blur", "attribution"] :=
  ⟨by decide, (park_serialization_keys galleryPark).2.2 sampleImage (by decide)⟩

/-- C8: `fetchGallery` returns exactly the `photo` images of the park
(a permutation of the filtered image table), in ascending ordering-key
order, built from the sorted rows; for photo keys stored as `[3, 1, 2]`
the gallery order is key 1, key 2, key 3; and a park with no photo rows
(e.g. an absent park) yields `[]`, never an error. -/
theorem gallery_photos_sorted (db : DB) (pid : Int) :
    List.Perm (imageRowsSorted db pid "photo")
      (db.images.filter (fun i => i.park_id == pid && i.type == "photo")) ∧
    (imageRowsSorted db pid "photo").Pairwise (fun a b => a.id ≤ b.id) ∧
    get_park_images db pid "photo" =
      (imageRowsSorted db pid "photo").map
        (fun img => { url := img.url, blur := img.blur_hash, attribution := img.attribution }) ∧
    ((get_park_images photoDb 1 "photo").map (fun g => g.url) = ["p1.jpg", "p2.jpg", "p3.jpg"]) ∧
    ((∀ i ∈ db.images, ¬(i.park_id = pid ∧ i.type = "photo")) →
      get_park_images db pid "photo" = []) := by
  refine ⟨List.perm_insertionSort _ _, List.sorted_insertionSort _ _, rfl, by decide, ?_⟩
  intro h
  have hf : db.images.filter (fun i => i.park_id == pid && i.type == "photo") = [] := by
    rw [List.filter_eq_nil_iff]
    intro a ha hp
    rw [Bool.and_eq_true, beq_iff_eq, beq_iff_eq] at hp
    exact h a ha ⟨hp.1, hp.2⟩
  rw [get_park_images, imageRowsSorted, hf]
  rfl

/-- C8 witness: the empty-gallery part applied to a store whose park 1 has
only satellite images. -/
theorem gallery_photos_sorted_witness :
    (∀ i ∈ satDb.images, ¬(i.park_id = 1 ∧ i.type = "photo")) ∧
    get_park_images satDb 1 "photo" = [] :=
  ⟨by decide, (gallery_photos_sorted satDb 1).2.2.2.2 (by decide)⟩

/-- C9: assembling a row whose activities payload encodes
`["hiking","camping"]` yields that activities sequence; a row whose
payload is SQL NULL (absent) or the empty string yields the empty
sequence. -/
theorem activities_roundtrip (db : DB) (row : ParkRow) :
    (row.activities = some "[\"hiking\",\"camping\"]" →
      ∃ p, get_park_from_row db row = .ok p ∧ p.activities = some ["hiking", "camping"]) ∧
    (row.activities = none →
      ∃ p, get_park_from_row db row = .ok p ∧ p.activities = some []) ∧
    (row.activities = some "" →
      ∃ p, get_park_from_row db row = .ok p ∧ p.activities = some []) := by
  refine ⟨?_, ?_, ?_⟩ <;> intro h
  · have hd : decodeActivities row.activities = .ok (some ["hiking", "camping"]) := by
      rw [h]; decide
    exact ⟨_, get_park_from_row_eq hd, rfl⟩
  · have hd : decodeActivities row.activities = .ok (some []) := by
      rw [h]; decide
    exact ⟨_, get_park_from_row_eq hd, rfl⟩
  · have hd : decodeActivities row.activities = .ok (some []) := by
      rw [h]; decide
    exact ⟨_, get_park_from_row_eq hd, rfl⟩

/-- C9 witness: the round-trip applied to a concrete encoded row and to a
concrete NULL-activities row. -/
theorem activities_roundtrip_witness :
    actRow.activities = some "[\"hiking\",\"camping\"]" ∧
    (∃ p, get_park_from_row emptyDb actRow = .ok p ∧
      p.activities = some ["hiking", "camping"]) ∧
    sampleRow.activities = none ∧
    (∃ p, get_park_from_row emptyDb sampleRow = .ok p ∧ p.activities = some []) :=
  ⟨rfl, (activities_roundtrip emptyDb actRow).1 rfl, rfl,
    (activities_roundtrip emptyDb sampleRow).2.1 rfl⟩

/-- C10: `get_parks_by_biome` is literally `get_parks(biome=biome)`: the two
operations agree on every store and every biome string. -/
theorem get_parks_by_biome_alias (db : DB) (b : String) :
    get_parks_by_biome db b = get_parks db (some b) := rfl

end ParkSphere
